import Mathlib

/-!
Shallow embedding of the `cass` query-request encoder
(`src/src/query_request.cpp`) and the round-robin event-loop group
(`src/cpp-driver/src/event_loop.cpp`), together with theorems settling the
specification claims about them.

Machine integers are modelled as `Nat`/`Int` with explicit reductions
modulo 256 / 2^32 where the code truncates; byte strings are `List Nat`.
-/

namespace Cass

/-- Modelled from the spec: the WireBuffer (`Buffer` in the driver; its header
is not under `src/`) is "a precisely-sized byte region written via positional
encode operations".  `cap` is the size passed to the constructor
(`Buffer(size)`), `written` the bytes stored so far from offset 0; a
positional store at `pos` keeps the first `pos` bytes and lays the new bytes
down from there, which on the code's always-sequential writes is plain
appending.  `size()` reports the allocated size. -/
structure Buffer where
  cap : Nat
  written : List Nat
deriving DecidableEq, Repr

instance : Inhabited Buffer := ⟨⟨0, []⟩⟩

def Buffer.size (b : Buffer) : Nat := b.cap

def Buffer.store (b : Buffer) (pos : Nat) (bs : List Nat) : Buffer × Nat :=
  (⟨b.cap, b.written.take pos ++ bs⟩, pos + bs.length)

/-- Modelled from the spec: big-endian 2-byte integer (`[short]`). -/
def uint16BE (v : Nat) : List Nat := [v / 256 % 256, v % 256]

/-- Modelled from the spec: big-endian 4-byte integer (`[int]`). -/
def uint32BE (v : Nat) : List Nat :=
  [v / 16777216 % 256, v / 65536 % 256, v / 256 % 256, v % 256]

/-- Modelled from the spec: `Buffer::encode_byte` writes one byte. -/
def Buffer.encode_byte (b : Buffer) (pos : Nat) (v : Nat) : Buffer × Nat :=
  b.store pos [v % 256]

/-- Modelled from the spec: `Buffer::encode_uint16` writes a 2-byte
big-endian integer. -/
def Buffer.encode_uint16 (b : Buffer) (pos : Nat) (v : Nat) : Buffer × Nat :=
  b.store pos (uint16BE v)

/-- Modelled from the spec: `Buffer::encode_int32` writes a 4-byte big-endian
signed integer (two's complement, hence reduction modulo 2^32). -/
def Buffer.encode_int32 (b : Buffer) (pos : Nat) (v : Int) : Buffer × Nat :=
  b.store pos (uint32BE (v % 4294967296).toNat)

/-- Modelled from the spec: a "long string" is a 4-byte length prefix plus
the raw bytes. -/
def Buffer.encode_long_string (b : Buffer) (pos : Nat) (s : List Nat) : Buffer × Nat :=
  b.store pos (uint32BE s.length ++ s)

/-- Modelled from the spec: a "bytes" blob is a 4-byte length prefix plus
the raw bytes. -/
def Buffer.encode_bytes (b : Buffer) (pos : Nat) (s : List Nat) : Buffer × Nat :=
  b.store pos (uint32BE s.length ++ s)

/-- Modelled from the spec: flag bit constants from the driver's public
header (not under `src/`); the spec only requires them to be distinct bits
of the flags byte, and these are the wire-protocol values. -/
def CASS_QUERY_FLAG_VALUES : Nat := 1

/-- Modelled from the spec: see `CASS_QUERY_FLAG_VALUES`. -/
def CASS_QUERY_FLAG_PAGE_SIZE : Nat := 4

/-- Modelled from the spec: see `CASS_QUERY_FLAG_VALUES`. -/
def CASS_QUERY_FLAG_PAGING_STATE : Nat := 8

/-- Modelled from the spec: see `CASS_QUERY_FLAG_VALUES`. -/
def CASS_QUERY_FLAG_SERIAL_CONSISTENCY : Nat := 16

/-- Modelled from the spec: the distinct negative error code returned for
named values under an unsupporting protocol version (declared in the
request header, which is not under `src/`). -/
def ENCODE_ERROR_UNSUPPORTED_PROTOCOL : Int := -2

/-- A `ValueName` entry: parameter name, the buffer holding its encoded
form, and its positional index (`query_request.hpp` is not under `src/`;
the fields are those the `.cpp` uses). -/
structure ValueName where
  name : List Nat
  buf : Buffer
  index : Nat
deriving DecidableEq, Repr

/-- Modelled from the spec: the buffer a `ValueName` carries for its name
(a 2-byte length-prefixed string, the protocol's `[string]`). -/
def mkValueNameBuf (name : List Nat) : Buffer :=
  ⟨2 + name.length, uint16BE name.length ++ name⟩

/-- Modelled from the spec: the `HashIndex` is "a fixed-capacity open
structure mapping parameter names to positional indices"; `cap` records the
capacity it was constructed with, `entries` the name→index bindings in
insertion order. -/
structure HashIndex where
  cap : Nat
  entries : List (List Nat × Nat)
deriving DecidableEq, Repr

/-- Modelled from the spec: `HashIndex::get` appends to the caller's index
vector every index bound to `name` and returns how many it found. -/
def HashIndex.get (hi : HashIndex) (name : List Nat) : List Nat :=
  (hi.entries.filter (fun e => e.1 = name)).map (fun e => e.2)

/-- Modelled from the spec: `HashIndex::insert` records a new name→index
binding. -/
def HashIndex.insert (hi : HashIndex) (name : List Nat) (i : Nat) : HashIndex :=
  ⟨hi.cap, hi.entries ++ [(name, i)]⟩

/-- The `QueryRequest` state used by `query_request.cpp`.  Accessors of the
missing header (`query_`, `consistency()`, `page_size()`, `paging_state()`,
`serial_consistency()`, `flags()`, `buffers()`, `value_names_`,
`value_names_index_`, `has_names_for_values()`) become fields. -/
structure QueryRequest where
  query : List Nat
  consistency : Nat
  serial_consistency : Nat
  page_size : Int
  paging_state : List Nat
  flags_ : Nat
  buffers : List Buffer
  value_names : List ValueName
  value_names_index : Option HashIndex
  has_names_for_values : Bool
deriving DecidableEq, Repr

def QueryRequest.buffers_count (r : QueryRequest) : Nat := r.buffers.length

def QueryRequest.flags (r : QueryRequest) : Nat := r.flags_

/-- Modelled from the spec: `elements_count()` (declared in the statement
header, not under `src/`) counts the bound parameters — "at least one
positional or named parameter is bound" — so it is the named count when
named binding is in use and the positional count otherwise. -/
def QueryRequest.elements_count (r : QueryRequest) : Nat :=
  if r.has_names_for_values then r.value_names.length else r.buffers.length

/-- `QueryRequest::get_indices` (lines 53–77): lazily creates the name
index on first use (switching the request into named-values mode), then
either returns the indices already bound to `name` or binds the next free
index, refusing when `index > buffers_count()`. -/
def QueryRequest.get_indices (r : QueryRequest) (name : List Nat) (indices : List Nat) :
    Nat × QueryRequest × List Nat :=
  let s : QueryRequest × HashIndex :=
    match r.value_names_index with
    | none =>
        ({ r with has_names_for_values := true,
                  value_names_index := some ⟨r.buffers.length, []⟩ },
         ⟨r.buffers.length, []⟩)
    | some hi => (r, hi)
  let r0 := s.1
  let hi := s.2
  let found := hi.get name
  if found.length = 0 then
    let i := r0.value_names.length
    if i > r0.buffers_count then
      (0, r0, indices)
    else
      let vn : ValueName := ⟨name, mkValueNameBuf name, i⟩
      let r1 := { r0 with value_names := r0.value_names ++ [vn],
                          value_names_index := some (hi.insert name i) }
      let indices1 := indices ++ [i]
      (indices1.length, r1, indices1)
  else
    let indices1 := indices ++ found
    (indices1.length, r0, indices1)

/-- The loop body of `copy_buffers_with_names` (lines 79–91): for each value
name in order, push the name buffer then the positional buffer at the same
index, accumulating their sizes.  An index beyond the positional buffers
reads the default buffer (the C++ reads out of bounds there). -/
def copyWithNamesAux (bufs : List Buffer) (vns : List ValueName) (i : Nat) :
    List Buffer × Nat :=
  match vns with
  | [] => ([], 0)
  | vn :: rest =>
      let value_buf := bufs.getD i default
      let t := copyWithNamesAux bufs rest (i + 1)
      (vn.buf :: value_buf :: t.1, vn.buf.size + value_buf.size + t.2)

def QueryRequest.copy_buffers_with_names (r : QueryRequest) : List Buffer × Nat :=
  copyWithNamesAux r.buffers r.value_names 0

/-- Modelled from the spec: `copy_buffers` (declared in the statement
header, not under `src/`) appends each positional value payload buffer
as-is and returns the sum of their sizes. -/
def QueryRequest.copy_buffers (r : QueryRequest) : List Buffer × Nat :=
  (r.buffers, (r.buffers.map Buffer.size).sum)

/-- The writes into the paging buffer (lines 166–184): the page size when
`page_size() >= 0`, then the paging state, then the serial consistency. -/
def pagingBuffer (r : QueryRequest) (pbs : Nat) : Buffer :=
  let s0 : Buffer × Nat := (⟨pbs, []⟩, 0)
  let s1 := if r.page_size ≥ 0 then Buffer.encode_int32 s0.1 s0.2 r.page_size else s0
  let s2 := if r.paging_state.length ≠ 0 then Buffer.encode_bytes s1.1 s1.2 r.paging_state else s1
  let s3 := if r.serial_consistency ≠ 0 then Buffer.encode_uint16 s2.1 s2.2 r.serial_consistency else s2
  s3.1

/-- Lines 166–186: append the paging buffer when its precomputed size is
positive and add that size to the reported length. -/
def encodePaging (r : QueryRequest) (pbs : Nat) (length : Nat) (bufs : List Buffer) :
    Int × List Buffer :=
  if pbs > 0 then (((length + pbs : Nat) : Int), bufs ++ [pagingBuffer r pbs])
  else (((length : Nat) : Int), bufs)

/-- Lines 149–151: the body buffer after the long-string query, the 2-byte
consistency and the flags byte have been written. -/
def bodyState (r : QueryRequest) (flags : Nat) (qbs : Nat) : Buffer × Nat :=
  let s1 := Buffer.encode_long_string ⟨qbs, []⟩ 0 r.query
  let s2 := Buffer.encode_uint16 s1.1 s1.2 r.consistency
  Buffer.encode_byte s2.1 s2.2 flags

/-- Lines 117–125: the body buffer size — query long string, consistency,
flags byte, plus the 2-byte value count when any parameter is bound. -/
def QueryRequest.query_buf_size (r : QueryRequest) : Nat :=
  if r.elements_count > 0 then 4 + r.query.length + 2 + 1 + 2
  else 4 + r.query.length + 2 + 1

/-- Lines 127–142: the paging buffer size accumulated from the page-size
field (only when `page_size() > 0`), the paging-state blob and the serial
consistency. -/
def QueryRequest.paging_buf_size (r : QueryRequest) : Nat :=
  (if r.page_size > 0 then 4 else 0)
  + (if r.paging_state.length ≠ 0 then 4 + r.paging_state.length else 0)
  + (if r.serial_consistency ≠ 0 then 2 else 0)

/-- Lines 115–142: the flags byte — the request's base flags OR'd with the
section-presence bits (`|||` with 0 when a section is absent). -/
def QueryRequest.wireFlags (r : QueryRequest) : Nat :=
  (((r.flags ||| (if r.elements_count > 0 then CASS_QUERY_FLAG_VALUES else 0))
    ||| (if r.page_size > 0 then CASS_QUERY_FLAG_PAGE_SIZE else 0))
    ||| (if r.paging_state.length ≠ 0 then CASS_QUERY_FLAG_PAGING_STATE else 0))
    ||| (if r.serial_consistency ≠ 0 then CASS_QUERY_FLAG_SERIAL_CONSISTENCY else 0)

/-- `QueryRequest::encode_internal` (lines 113–187). -/
def QueryRequest.encode_internal (r : QueryRequest) (version : Int) (bufs : List Buffer) :
    Int × List Buffer :=
  let qbs := r.query_buf_size
  let pbs := r.paging_buf_size
  let flags := r.wireFlags
  let s := bodyState r flags qbs
  if r.has_names_for_values then
    if version < 3 then
      (ENCODE_ERROR_UNSUPPORTED_PROTOCOL, bufs ++ [s.1])
    else
      let sc := (Buffer.encode_uint16 s.1 s.2 r.value_names.length).1
      let cw := r.copy_buffers_with_names
      encodePaging r pbs (qbs + cw.2) (bufs ++ [sc] ++ cw.1)
  else
    if r.buffers_count > 0 then
      let sc := (Buffer.encode_uint16 s.1 s.2 r.buffers_count).1
      let cb := r.copy_buffers
      encodePaging r pbs (qbs + cb.2) (bufs ++ [sc] ++ cb.1)
    else
      encodePaging r pbs qbs (bufs ++ [s.1])

/-- `QueryRequest::internal_encode_v1` (lines 101–111). -/
def QueryRequest.internal_encode_v1 (r : QueryRequest) (bufs : List Buffer) :
    Int × List Buffer :=
  let length := 4 + r.query.length + 2
  let s1 := Buffer.encode_long_string ⟨length, []⟩ 0 r.query
  let s2 := Buffer.encode_uint16 s1.1 s1.2 r.consistency
  (((length : Nat) : Int), bufs ++ [s2.1])

/-- `QueryRequest::encode` (lines 93–99). -/
def QueryRequest.encode (r : QueryRequest) (version : Int) (bufs : List Buffer) :
    Int × List Buffer :=
  if version = 1 then r.internal_encode_v1 bufs else r.encode_internal version bufs

/-- `RoundRobinEventLoopGroup` (event_loop.cpp): the atomic cursor and, for
each member loop, the FIFO of tasks it has received (`EventLoop::add`
enqueues into the loop's `TaskQueue`).  The embedding is the sequential
semantics of the fetch-add order. -/
structure RoundRobinEventLoopGroup where
  current : Nat
  threads : List (List Nat)
deriving DecidableEq, Repr

/-- `RoundRobinEventLoopGroup::add` (lines 215–219): pick the loop at
`current mod size`, bump the cursor, enqueue the task there and return the
chosen loop (here: its index). -/
def RoundRobinEventLoopGroup.add (g : RoundRobinEventLoopGroup) (task : Nat) :
    Nat × RoundRobinEventLoopGroup :=
  let i := g.current % g.threads.length
  (i, ⟨g.current + 1, g.threads.set i ((g.threads.getD i []) ++ [task])⟩)

/-- A freshly constructed group of `K` member loops (cursor 0, empty
queues). -/
def initGroup (K : Nat) : RoundRobinEventLoopGroup :=
  ⟨0, List.replicate K []⟩

/-- `M` successive `add` calls, task `i` being the `i`-th (0-indexed) call's
task. -/
def addMany (g : RoundRobinEventLoopGroup) : Nat → RoundRobinEventLoopGroup
  | 0 => g
  | n + 1 => ((addMany g n).add n).2

end Cass

namespace Cass

/-! ### Helper lemmas -/

lemma uint16BE_length (v : Nat) : (uint16BE v).length = 2 := rfl

lemma uint32BE_length (v : Nat) : (uint32BE v).length = 4 := rfl

lemma store_at (b : Buffer) (pos : Nat) (bs : List Nat) (h : pos = b.written.length) :
    b.store pos bs = (⟨b.cap, b.written ++ bs⟩, pos + bs.length) := by
  subst h; simp [Buffer.store, List.take_length]

/-- The body buffer after lines 149–151: the long-string query text, the
2-byte big-endian consistency and the flags byte, in a buffer of the
precomputed size. -/
lemma bodyState_fst (r : QueryRequest) (f q : Nat) :
    (bodyState r f q).1 =
      ⟨q, uint32BE r.query.length ++ r.query ++ uint16BE r.consistency ++ [f % 256]⟩ := by
  have e1 : Buffer.encode_long_string ⟨q, []⟩ 0 r.query
      = (⟨q, uint32BE r.query.length ++ r.query⟩,
         (uint32BE r.query.length ++ r.query).length) := by
    simp [Buffer.encode_long_string, Buffer.store]
  have e2 : Buffer.encode_uint16 ⟨q, uint32BE r.query.length ++ r.query⟩
        ((uint32BE r.query.length ++ r.query).length) r.consistency
      = (⟨q, (uint32BE r.query.length ++ r.query) ++ uint16BE r.consistency⟩,
         (uint32BE r.query.length ++ r.query).length + 2) := by
    rw [Buffer.encode_uint16, store_at _ _ _ rfl]
    simp [uint16BE_length]
  have e3 : Buffer.encode_byte
        ⟨q, (uint32BE r.query.length ++ r.query) ++ uint16BE r.consistency⟩
        ((uint32BE r.query.length ++ r.query).length + 2) f
      = (⟨q, ((uint32BE r.query.length ++ r.query) ++ uint16BE r.consistency) ++ [f % 256]⟩,
         (uint32BE r.query.length ++ r.query).length + 2 + 1) := by
    rw [Buffer.encode_byte,
      store_at _ _ _ (by simp only [List.length_append, uint16BE_length])]
    simp [List.append_assoc]
  simp only [bodyState, e1, e2, e3]

lemma encode_named_error (r : QueryRequest) (v : Int) (bufs : List Buffer)
    (h : r.has_names_for_values = true) (h2 : 2 ≤ v) (h3 : v < 3) :
    (r.encode v bufs).1 = ENCODE_ERROR_UNSUPPORTED_PROTOCOL ∧
      (r.encode v bufs).2 = bufs ++ [⟨r.query_buf_size,
        uint32BE r.query.length ++ r.query ++ uint16BE r.consistency
          ++ [r.wireFlags % 256]⟩] := by
  have hv : ¬ v = 1 := by omega
  simp only [QueryRequest.encode, if_neg hv, QueryRequest.encode_internal, h, if_pos h3,
    if_true, bodyState_fst]
  exact ⟨trivial, trivial⟩

/-! ### Concrete requests used by individual claims -/

/-- A request in named-values mode with one bound name (used by C1 only). -/
def rNamedC1 : QueryRequest :=
  { query := [113], consistency := 1, serial_consistency := 0, page_size := -1,
    paging_state := [], flags_ := 0, buffers := [⟨5, [0, 0, 0, 1, 7]⟩],
    value_names := [⟨[97], mkValueNameBuf [97], 0⟩],
    value_names_index := some ⟨1, [([97], 0)]⟩, has_names_for_values := true }

/-- The round-trip request of the spec: text "SELECT * FROM t", consistency
ONE, nothing else set (used by C2 only). -/
def rQueryC2 : QueryRequest :=
  { query := [83, 69, 76, 69, 67, 84, 32, 42, 32, 70, 82, 79, 77, 32, 116],
    consistency := 1, serial_consistency := 0, page_size := -1, paging_state := [],
    flags_ := 0, buffers := [], value_names := [], value_names_index := none,
    has_names_for_values := false }

/-- A request whose page size has been explicitly set to 0 (used by C3 only). -/
def rPageZeroC3 : QueryRequest :=
  { query := [], consistency := 0, serial_consistency := 0, page_size := 0,
    paging_state := [], flags_ := 0, buffers := [], value_names := [],
    value_names_index := none, has_names_for_values := false }

/-- A request declaring exactly one positional parameter buffer (used by C4
only). -/
def rOneBufC4 : QueryRequest :=
  { query := [113], consistency := 1, serial_consistency := 0, page_size := -1,
    paging_state := [], flags_ := 0, buffers := [⟨3, [0, 0, 0]⟩], value_names := [],
    value_names_index := none, has_names_for_values := false }

/-- A request with page size 0 and a non-empty paging state (used by C9
only). -/
def rPagingC9 : QueryRequest :=
  { query := [], consistency := 0, serial_consistency := 0, page_size := 0,
    paging_state := [1], flags_ := 0, buffers := [], value_names := [],
    value_names_index := none, has_names_for_values := false }

/-- A fresh request (never switched to named-values mode) with one positional
buffer (used by C10 only). -/
def rFreshC10 : QueryRequest :=
  { query := [113], consistency := 1, serial_consistency := 0, page_size := -1,
    paging_state := [], flags_ := 0, buffers := [⟨3, [0, 0, 0]⟩], value_names := [],
    value_names_index := none, has_names_for_values := false }

/-! ### C1 -/

/-- C1 counterexample: on a named-values request under version 2, `encode`
does return `ENCODE_ERROR_UNSUPPORTED_PROTOCOL`, but it appends one buffer
(the partially written body buffer) — not zero as the claim states. -/
theorem c1_counterexample :
    rNamedC1.has_names_for_values = true ∧
    (rNamedC1.encode 2 []).1 = ENCODE_ERROR_UNSUPPORTED_PROTOCOL ∧
    (rNamedC1.encode 2 []).2.length = 1 := by decide

/-- C1 (amended): for every QueryRequest using named values and every
protocol version `v` with `2 ≤ v < 3`, `encode` returns
`ENCODE_ERROR_UNSUPPORTED_PROTOCOL` and appends exactly one buffer — the
body buffer, sized to the precomputed body size and already containing
exactly the long-string query text, the 2-byte big-endian consistency and
the flags byte; no value-section or paging buffers follow it. -/
theorem c1_named_error_appends_body_buffer (r : QueryRequest) (v : Int) (bufs : List Buffer)
    (h : r.has_names_for_values = true) (h2 : 2 ≤ v) (h3 : v < 3) :
    (r.encode v bufs).1 = ENCODE_ERROR_UNSUPPORTED_PROTOCOL ∧
      (r.encode v bufs).2 = bufs ++ [⟨r.query_buf_size,
        uint32BE r.query.length ++ r.query ++ uint16BE r.consistency
          ++ [r.wireFlags % 256]⟩] :=
  encode_named_error r v bufs h h2 h3

/-- C1 witness: the amended statement instantiated at `rNamedC1`, version 2,
empty output vector. -/
theorem c1_witness :
    rNamedC1.has_names_for_values = true ∧
    ((rNamedC1.encode 2 []).1 = ENCODE_ERROR_UNSUPPORTED_PROTOCOL ∧
      (rNamedC1.encode 2 []).2 = [] ++ [⟨rNamedC1.query_buf_size,
        uint32BE rNamedC1.query.length ++ rNamedC1.query ++ uint16BE rNamedC1.consistency
          ++ [rNamedC1.wireFlags % 256]⟩]) :=
  ⟨by decide, c1_named_error_appends_body_buffer rNamedC1 2 [] (by decide) (by decide) (by decide)⟩

/-! ### C2 -/

/-- C2: encoding the plain "SELECT * FROM t" request (consistency ONE, no
parameters, no paging fields) under version 2 appends exactly one buffer,
whose bytes are the 4-byte big-endian length 15, the query text, the 2-byte
big-endian consistency ONE, and the flags byte 0, and returns its size 22. -/
theorem c2_plain_v2_exact_bytes :
    rQueryC2.encode 2 [] =
      ((22 : Int),
        [⟨22, [0, 0, 0, 15, 83, 69, 76, 69, 67, 84, 32, 42, 32, 70, 82, 79, 77, 32, 116,
               0, 1, 0]⟩]) := by decide

/-! ### C3 -/

/-- C3 (code bug, evaluated at the failing input): with page size explicitly
set to 0 — which is `≥ 0`, so the claim and spec demand the PAGE_SIZE bit
and a 4-byte field — the code (line 127 tests `page_size() > 0`) emits a
single buffer whose flags byte (offset 6) is 0 and no paging buffer at
all. -/
theorem c3_page_size_zero_flag_missing :
    rPageZeroC3.page_size = 0 ∧
    (rPageZeroC3.encode 2 []).2.length = 1 ∧
    ((rPageZeroC3.encode 2 []).2.getD 0 default).written.getD 6 255 = 0 := by decide

/-! ### C4 -/

/-- C4 (code bug, evaluated at the failing input): with 1 declared
positional buffer, binding "a" succeeds (index 0), and the next distinct
name "b" — which the claim says must return 0 without mutating anything —
also succeeds: the call returns 1, binds "b" at index 1, and the structure
grows to 2 names, past the positional capacity 1 (line 62 tests
`index > buffers_count()` instead of `>=`). -/
theorem c4_capacity_off_by_one :
    rOneBufC4.buffers_count = 1 ∧
    (rOneBufC4.get_indices [97] []).1 = 1 ∧
    ((rOneBufC4.get_indices [97] []).2.1.get_indices [98] []).1 = 1 ∧
    ((rOneBufC4.get_indices [97] []).2.1.get_indices [98] []).2.1.value_names.length = 2 := by
  decide

/-! ### C9 -/

/-- C9 (code bug, evaluated at the failing input): with page size 0 and a
1-byte paging state, the paging buffer is sized for 5 bytes (line 127 did
not reserve the page-size field, testing `> 0`) but the write path (line
173, testing `>= 0`) stores 9 bytes into it — 4 bytes past the precomputed
size. -/
theorem c9_paging_write_past_size :
    (rPagingC9.encode 2 []).2.length = 2 ∧
    ((rPagingC9.encode 2 []).2.getD 1 default).size = 5 ∧
    ((rPagingC9.encode 2 []).2.getD 1 default).written.length = 9 := by decide

/-! ### C10 -/

/-- C10 counterexample: after the first `get_indices` call the request is in
named-values mode, and version 1 is `< 3`, yet `encode` under version 1
succeeds (returns length 7), because `encode` dispatches version 1 to
`internal_encode_v1`, which never consults the named-values state — the
claim's "every subsequent encode … under version < 3 fails" is false at
version 1. -/
theorem c10_counterexample :
    ((rFreshC10.get_indices [97] []).2.1).has_names_for_values = true ∧
    (1 : Int) < 3 ∧
    (((rFreshC10.get_indices [97] []).2.1).encode 1 []).1 = 7 ∧
    ¬ ((((rFreshC10.get_indices [97] []).2.1).encode 1 []).1 =
        ENCODE_ERROR_UNSUPPORTED_PROTOCOL) := by decide

/-- C10 (amended): the first `get_indices` call on a request whose name
index does not yet exist permanently switches it into named-values mode —
`has_names_for_values` becomes true and the name index is allocated with
capacity equal to the positional buffer count — and every subsequent encode
under a version `v` with `2 ≤ v < 3` takes the named-values path and fails
with `ENCODE_ERROR_UNSUPPORTED_PROTOCOL` (version 1 bypasses that path and
succeeds). -/
theorem c10_first_get_indices_switches_mode (r : QueryRequest) (name : List Nat)
    (idx : List Nat) (h : r.value_names_index = none) :
    ((r.get_indices name idx).2.1.has_names_for_values = true) ∧
    (∃ hi, (r.get_indices name idx).2.1.value_names_index = some hi ∧
      hi.cap = r.buffers_count) ∧
    ∀ (v : Int) (bufs : List Buffer), 2 ≤ v → v < 3 →
      ((r.get_indices name idx).2.1.encode v bufs).1 = ENCODE_ERROR_UNSUPPORTED_PROTOCOL := by
  simp only [QueryRequest.get_indices, h, HashIndex.get, List.filter_nil, List.map_nil,
    List.length_nil]
  simp only [if_true, HashIndex.insert]
  split
  · exact ⟨rfl, ⟨_, rfl, rfl⟩, fun v bufs h2 h3 =>
      (encode_named_error _ v bufs rfl h2 h3).1⟩
  · exact ⟨rfl, ⟨_, rfl, rfl⟩, fun v bufs h2 h3 =>
      (encode_named_error _ v bufs rfl h2 h3).1⟩

/-- C10 witness: the amended statement instantiated at `rFreshC10`, name
"a", version 2. -/
theorem c10_witness :
    rFreshC10.value_names_index = none ∧
    ((rFreshC10.get_indices [97] []).2.1.encode 2 []).1 =
      ENCODE_ERROR_UNSUPPORTED_PROTOCOL :=
  ⟨by decide,
    (c10_first_get_indices_switches_mode rFreshC10 [97] [] (by decide)).2.2 2 []
      (by decide) (by decide)⟩

/-! ### Helper lemmas for the round-robin group -/

lemma getD_set_self {α : Type} (l : List α) (i : Nat) (x d : α) (h : i < l.length) :
    (l.set i x).getD i d = x := by
  induction l generalizing i with
  | nil => simp at h
  | cons a t ih =>
      cases i with
      | zero => simp
      | succ n =>
          simp only [List.set, List.getD, List.getElem?_cons_succ]
          exact ih n (by simpa using h)

lemma getD_set_ne {α : Type} (l : List α) (i j : Nat) (x d : α) (h : i ≠ j) :
    (l.set i x).getD j d = l.getD j d := by
  induction l generalizing i j with
  | nil => simp
  | cons a t ih =>
      cases i with
      | zero =>
          cases j with
          | zero => exact absurd rfl h
          | succ m => simp [List.getD]
      | succ n =>
          cases j with
          | zero => simp [List.getD]
          | succ m =>
              simp only [List.set, List.getD, List.getElem?_cons_succ]
              exact ih n m (fun he => h (by rw [he]))

lemma getD_replicate {α : Type} (K j : Nat) (d : α) :
    (List.replicate K d).getD j d = d := by
  induction K generalizing j with
  | zero => simp [List.getD]
  | succ n ih =>
      cases j with
      | zero => simp [List.replicate]
      | succ m => simpa [List.replicate, List.getD] using ih m

lemma addMany_current (g : RoundRobinEventLoopGroup) (M : Nat) :
    (addMany g M).current = g.current + M := by
  induction M with
  | zero => rfl
  | succ n ih => simp [addMany, RoundRobinEventLoopGroup.add, ih]; omega

lemma addMany_threads_length (g : RoundRobinEventLoopGroup) (M : Nat) :
    (addMany g M).threads.length = g.threads.length := by
  induction M with
  | zero => rfl
  | succ n ih => simp [addMany, RoundRobinEventLoopGroup.add, ih]

lemma addMany_getD (K : Nat) (hK : 0 < K) (M j : Nat) :
    (addMany (initGroup K) M).threads.getD j [] =
      (List.range M).filter (fun i => i % K = j) := by
  induction M with
  | zero =>
      simp only [addMany, initGroup, List.range_zero, List.filter_nil]
      exact getD_replicate K j []
  | succ n ih =>
      have hc : (addMany (initGroup K) n).current = n := by
        simpa [initGroup] using addMany_current (initGroup K) n
      have hl : (addMany (initGroup K) n).threads.length = K := by
        simpa [initGroup] using addMany_threads_length (initGroup K) n
      have hlt : n % K < K := Nat.mod_lt _ hK
      simp only [addMany, RoundRobinEventLoopGroup.add, hc, hl]
      rw [List.range_succ, List.filter_append]
      by_cases hj : n % K = j
      · subst hj
        rw [getD_set_self _ _ _ _ (by rw [hl]; exact hlt), ih]
        simp
      · rw [getD_set_ne _ _ _ _ _ hj, ih]
        simp [hj]

lemma succ_mod_div (K q r : Nat) (hK : 0 < K) (hr : r < K) :
    (K * q + r + 1) % K = (if r = K - 1 then 0 else r + 1) ∧
    (K * q + r + 1) / K = (if r = K - 1 then q + 1 else q) := by
  by_cases h : r = K - 1
  · subst h
    have h1 : K * q + (K - 1) + 1 = K * (q + 1) := by rw [Nat.mul_succ]; omega
    rw [h1]
    simp [Nat.mul_mod_right, Nat.mul_div_cancel_left _ hK]
  · have hr1 : r + 1 < K := by omega
    constructor
    · rw [Nat.add_assoc, Nat.mul_add_mod]
      simp [h, Nat.mod_eq_of_lt hr1]
    · rw [Nat.add_assoc, Nat.mul_add_div hK]
      simp [h, Nat.div_eq_of_lt hr1]

lemma count_residue (K : Nat) (hK : 0 < K) (j : Nat) (hj : j < K) :
    ∀ M, ((List.range M).filter (fun i => i % K = j)).length
      = M / K + (if j < M % K then 1 else 0)
  | 0 => by simp
  | M + 1 => by
      rw [List.range_succ, List.filter_append, List.length_append,
        count_residue K hK j hj M]
      have hr : M % K < K := Nat.mod_lt _ hK
      have hs := succ_mod_div K (M / K) (M % K) hK hr
      rw [Nat.div_add_mod M K] at hs
      obtain ⟨h1, h2⟩ := hs
      rw [h1, h2]
      have hfm : (List.filter (fun i => decide (i % K = j)) [M]).length
          = if M % K = j then 1 else 0 := by
        by_cases h : M % K = j <;> simp [h]
      rw [hfm]
      by_cases hc : M % K = K - 1
      · rw [if_pos hc, if_pos hc]
        simp only [Nat.not_lt_zero, if_false]
        by_cases hj2 : M % K = j
        · rw [if_pos hj2, if_neg (by omega)]
        · rw [if_neg hj2, if_pos (by omega)]
      · rw [if_neg hc, if_neg hc]
        by_cases hj2 : M % K = j
        · rw [if_pos hj2, if_neg (by omega), if_pos (by omega)]
        · by_cases hj3 : j < M % K
          · rw [if_pos hj3, if_neg hj2, if_pos (by omega)]
          · rw [if_neg hj3, if_neg hj2, if_neg (by omega)]

lemma ceil_succ_div (K M : Nat) (hK : 0 < K) (h : 0 < M % K) :
    (M + K - 1) / K = M / K + 1 := by
  have hd := Nat.div_add_mod M K
  have hr : M % K < K := Nat.mod_lt M hK
  have hmul : K * (M / K + 1) = K * (M / K) + K := by ring
  have h1 : M + K - 1 = K * (M / K + 1) + (M % K - 1) := by rw [hmul]; omega
  rw [h1, Nat.mul_add_div hK, Nat.div_eq_of_lt (show M % K - 1 < K by omega)]

/-- C5: in a round-robin group of `K` member loops (sequential semantics of
the fetch-add order), the `i`-th `add` call (0-indexed) returns loop
`i mod K` and enqueues its task there, and after `M` `add` calls each member
loop `j < K` has received either `⌊M/K⌋` or `⌈M/K⌉` (= `(M+K-1)/K`)
tasks. -/
theorem c5_round_robin (K M : Nat) (hK : 0 < K) :
    (∀ i t, ((addMany (initGroup K) i).add t).1 = i % K ∧
       ((addMany (initGroup K) i).add t).2.threads.getD (i % K) [] =
         ((addMany (initGroup K) i).threads.getD (i % K) []) ++ [t]) ∧
    (∀ j, j < K →
       ((addMany (initGroup K) M).threads.getD j []).length = M / K ∨
       ((addMany (initGroup K) M).threads.getD j []).length = (M + K - 1) / K) := by
  constructor
  · intro i t
    have hc : (addMany (initGroup K) i).current = i := by
      simpa [initGroup] using addMany_current (initGroup K) i
    have hl : (addMany (initGroup K) i).threads.length = K := by
      simpa [initGroup] using addMany_threads_length (initGroup K) i
    have hlt : i % K < K := Nat.mod_lt _ hK
    constructor
    · simp [RoundRobinEventLoopGroup.add, hc, hl]
    · simp only [RoundRobinEventLoopGroup.add, hc, hl]
      exact getD_set_self _ _ _ _ (by rw [hl]; exact hlt)
  · intro j hj
    rw [addMany_getD K hK M j, count_residue K hK j hj M]
    by_cases hlt : j < M % K
    · right
      rw [ceil_succ_div K M hK (by omega), if_pos hlt]
    · left
      rw [if_neg hlt]
      omega


/-! ### C7 -/

/-- C7: under version 1, `encode` appends exactly one buffer containing the
long-string-encoded query text (4-byte big-endian length + bytes) followed by
the 2-byte big-endian consistency — no flags byte, no values, no paging —
and returns `4 + |query| + 2`, for every request (bound parameters, page
size, paging state and serial consistency are never consulted). -/
theorem c7_v1_layout (r : QueryRequest) (bufs : List Buffer) :
    r.encode 1 bufs =
      (((4 + r.query.length + 2 : Nat) : Int),
        bufs ++ [⟨4 + r.query.length + 2,
          uint32BE r.query.length ++ r.query ++ uint16BE r.consistency⟩]) := by
  have e1 : Buffer.encode_long_string ⟨4 + r.query.length + 2, []⟩ 0 r.query
      = (⟨4 + r.query.length + 2, uint32BE r.query.length ++ r.query⟩,
         (uint32BE r.query.length ++ r.query).length) := by
    simp [Buffer.encode_long_string, Buffer.store]
  have e2 : Buffer.encode_uint16
        ⟨4 + r.query.length + 2, uint32BE r.query.length ++ r.query⟩
        ((uint32BE r.query.length ++ r.query).length) r.consistency
      = (⟨4 + r.query.length + 2,
          uint32BE r.query.length ++ r.query ++ uint16BE r.consistency⟩,
         (uint32BE r.query.length ++ r.query).length + 2) := by
    rw [Buffer.encode_uint16, store_at _ _ _ rfl]
    simp [List.append_assoc, uint16BE_length]
  simp only [QueryRequest.encode, if_pos rfl, QueryRequest.internal_encode_v1, e1, e2,
    if_true]



/-- C5 witness: the round-robin theorem instantiated at `K = 2`, `M = 5`,
loop 1. -/
theorem c5_witness :
    0 < 2 ∧
    (((addMany (initGroup 2) 5).threads.getD 1 []).length = 5 / 2 ∨
      ((addMany (initGroup 2) 5).threads.getD 1 []).length = (5 + 2 - 1) / 2) :=
  ⟨by decide, (c5_round_robin 2 5 (by decide)).2 1 (by decide)⟩

lemma pagingBuffer_size (r : QueryRequest) (pbs : Nat) :
    (pagingBuffer r pbs).size = pbs := by
  simp only [pagingBuffer, Buffer.size]
  split_ifs <;> rfl

lemma bodyState_fst_cap (r : QueryRequest) (f q : Nat) :
    ((bodyState r f q).1).cap = q := rfl

lemma count_fst_cap (r : QueryRequest) (f q p n : Nat) :
    ((Buffer.encode_uint16 (bodyState r f q).1 p n).1).cap = q := rfl

lemma copyWithNamesAux_sum (bufs : List Buffer) (vns : List ValueName) (i : Nat) :
    (((copyWithNamesAux bufs vns i).1).map Buffer.size).sum
      = (copyWithNamesAux bufs vns i).2 := by
  induction vns generalizing i with
  | nil => simp [copyWithNamesAux]
  | cons vn rest ih =>
      simp only [copyWithNamesAux, List.map_cons, List.sum_cons, ih]
      omega

lemma copy_buffers_with_names_sum (r : QueryRequest) :
    ((r.copy_buffers_with_names.1).map Buffer.size).sum = r.copy_buffers_with_names.2 :=
  copyWithNamesAux_sum r.buffers r.value_names 0

/-- C6: whenever `encode` returns a non-negative result, the buffer list is
extended (the first `|bufs|` entries are untouched) and the result equals
the exact sum of the sizes of all buffers appended by the call — body
buffer, name/value payload buffers, and the paging buffer when present. -/
theorem c6_result_is_sum (r : QueryRequest) (v : Int) (bufs : List Buffer)
    (h : 0 ≤ (r.encode v bufs).1) :
    (r.encode v bufs).2.take bufs.length = bufs ∧
    (r.encode v bufs).1
      = ((((r.encode v bufs).2.drop bufs.length).map Buffer.size).sum : Nat) := by
  by_cases hv : v = 1
  · subst hv
    simp only [QueryRequest.encode, if_pos rfl, QueryRequest.internal_encode_v1, if_true]
    rw [List.take_left, List.drop_left]
    simp [Buffer.size, Buffer.encode_uint16, Buffer.encode_long_string, Buffer.store]
  · simp only [QueryRequest.encode, if_neg hv, QueryRequest.encode_internal] at h ⊢
    by_cases hn : r.has_names_for_values
    · simp only [hn, if_true] at h ⊢
      by_cases h3 : v < 3
      · rw [if_pos h3] at h
        simp [ENCODE_ERROR_UNSUPPORTED_PROTOCOL] at h
      · rw [if_neg h3] at h ⊢
        simp only [encodePaging] at h ⊢
        split
        · rw [List.append_assoc, List.append_assoc, List.take_left, List.drop_left]
          refine ⟨rfl, ?_⟩
          simp only [List.map_append, List.sum_append, List.map_cons, List.sum_cons,
            List.map_nil, List.sum_nil, copy_buffers_with_names_sum]
          have h1 : ((Buffer.encode_uint16 (bodyState r r.wireFlags r.query_buf_size).1
              (bodyState r r.wireFlags r.query_buf_size).2 r.value_names.length).1).size
              = r.query_buf_size := rfl
          rw [h1, pagingBuffer_size]
          push_cast
          ring
        · rw [List.append_assoc, List.take_left, List.drop_left]
          refine ⟨rfl, ?_⟩
          simp only [List.map_append, List.map_cons, List.sum_append, List.sum_cons,
            List.map_nil, List.sum_nil, copy_buffers_with_names_sum]
          have h1 : ((Buffer.encode_uint16 (bodyState r r.wireFlags r.query_buf_size).1
              (bodyState r r.wireFlags r.query_buf_size).2 r.value_names.length).1).size
              = r.query_buf_size := rfl
          rw [h1]
          push_cast
          ring
    · simp only [hn, if_false, Bool.false_eq_true] at h ⊢
      by_cases hb : r.buffers_count > 0
      · rw [if_pos hb] at h ⊢
        simp only [encodePaging] at h ⊢
        split
        · rw [List.append_assoc, List.append_assoc, List.take_left, List.drop_left]
          refine ⟨rfl, ?_⟩
          simp only [List.map_append, List.sum_append, List.map_cons, List.sum_cons,
            List.map_nil, List.sum_nil, QueryRequest.copy_buffers]
          have h1 : ((Buffer.encode_uint16 (bodyState r r.wireFlags r.query_buf_size).1
              (bodyState r r.wireFlags r.query_buf_size).2 r.buffers_count).1).size
              = r.query_buf_size := rfl
          rw [h1, pagingBuffer_size]
          push_cast
          ring
        · rw [List.append_assoc, List.take_left, List.drop_left]
          refine ⟨rfl, ?_⟩
          simp only [List.map_append, List.map_cons, List.sum_append, List.sum_cons,
            List.map_nil, List.sum_nil, QueryRequest.copy_buffers]
          have h1 : ((Buffer.encode_uint16 (bodyState r r.wireFlags r.query_buf_size).1
              (bodyState r r.wireFlags r.query_buf_size).2 r.buffers_count).1).size
              = r.query_buf_size := rfl
          rw [h1]
          push_cast
          ring
      · rw [if_neg hb] at h ⊢
        simp only [encodePaging] at h ⊢
        split
        · rw [List.append_assoc, List.take_left, List.drop_left]
          refine ⟨rfl, ?_⟩
          simp only [List.map_append, List.map_cons, List.sum_append, List.sum_cons,
            List.map_nil, List.sum_nil]
          have h1 : ((bodyState r r.wireFlags r.query_buf_size).1).size
              = r.query_buf_size := rfl
          rw [h1, pagingBuffer_size]
          push_cast
          ring
        · rw [List.take_left, List.drop_left]
          refine ⟨rfl, ?_⟩
          simp only [List.map_cons, List.sum_cons, List.map_nil, List.sum_nil]
          have h1 : ((bodyState r r.wireFlags r.query_buf_size).1).size
              = r.query_buf_size := rfl
          rw [h1]
          push_cast
          ring


/-- The spec's second example request — one positional parameter and page
size 100 (used by C6 only). -/
def rSumC6 : QueryRequest :=
  { query := [113], consistency := 1, serial_consistency := 0, page_size := 100,
    paging_state := [], flags_ := 0, buffers := [⟨5, [0, 0, 0, 1, 9]⟩],
    value_names := [], value_names_index := none, has_names_for_values := false }

/-- C6 witness: the sum theorem instantiated at `rSumC6`, version 2, empty
output vector. -/
theorem c6_witness :
    0 ≤ (rSumC6.encode 2 []).1 ∧
    ((rSumC6.encode 2 []).2.take (List.length ([] : List Buffer)) = ([] : List Buffer) ∧
      (rSumC6.encode 2 []).1
        = ((((rSumC6.encode 2 []).2.drop
              (List.length ([] : List Buffer))).map Buffer.size).sum : Nat)) :=
  ⟨by decide, c6_result_is_sum rSumC6 2 [] (by decide)⟩

/-! ### C8 -/

/-- C8: whenever a `get_indices` call with a name succeeds (returns count 1,
i.e. the name is bound within the positional capacity), a second
`get_indices` call with the same name returns the same count and the same
positional index list and leaves the request unchanged — no new binding is
created. -/
theorem c8_same_name_same_index (r : QueryRequest) (name : List Nat)
    (h : (r.get_indices name []).1 = 1) :
    ((r.get_indices name []).2.1).get_indices name [] =
      (1, (r.get_indices name []).2.1, (r.get_indices name []).2.2) := by
  cases hidx : r.value_names_index with
  | none =>
      simp only [QueryRequest.get_indices, hidx, HashIndex.get, List.filter_nil,
        List.map_nil, List.length_nil, eq_self_iff_true, if_true,
        QueryRequest.buffers_count] at h ⊢
      by_cases hcap : r.value_names.length > r.buffers.length
      · rw [if_pos hcap] at h
        simp at h
      · rw [if_neg hcap] at h ⊢
        simp [QueryRequest.get_indices, HashIndex.insert, HashIndex.get]
  | some hi =>
      simp only [QueryRequest.get_indices, hidx, QueryRequest.buffers_count] at h ⊢
      by_cases hf : (hi.get name).length = 0
      · rw [if_pos hf] at h ⊢
        have hnil : hi.entries.filter (fun e => decide (e.1 = name)) = [] := by
          simp only [HashIndex.get, List.length_map, List.length_eq_zero] at hf
          exact hf
        by_cases hcap : r.value_names.length > r.buffers.length
        · rw [if_pos hcap] at h
          simp at h
        · rw [if_neg hcap] at h ⊢
          simp [QueryRequest.get_indices, HashIndex.insert, HashIndex.get,
            List.filter_append, hnil]
      · rw [if_neg hf] at h ⊢
        simp at h
        simp [QueryRequest.get_indices, hidx, hf, h]


/-- A fresh request with one positional buffer (used by C8 only). -/
def rBindC8 : QueryRequest :=
  { query := [113], consistency := 1, serial_consistency := 0, page_size := -1,
    paging_state := [], flags_ := 0, buffers := [⟨4, [0, 0, 0, 0]⟩],
    value_names := [], value_names_index := none, has_names_for_values := false }

/-- C8 witness: the reuse theorem instantiated at `rBindC8` and the name
"x". -/
theorem c8_witness :
    (rBindC8.get_indices [120] []).1 = 1 ∧
    ((rBindC8.get_indices [120] []).2.1).get_indices [120] [] =
      (1, (rBindC8.get_indices [120] []).2.1, (rBindC8.get_indices [120] []).2.2) :=
  ⟨by decide, c8_same_name_same_index rBindC8 [120] (by decide)⟩

end Cass
